import Mathlib

/-!
Shallow embedding of the `DocumentationScraper` class from
`src/documentation-scraper.ts` (carlosazaustre/docusaurus-scraper), together
with proofs settling the specification claims about URL discovery, platform
configuration, content extraction, Markdown conversion and error handling.

Strings are modelled by Lean `String`; the JavaScript string operations used
by the source (`startsWith`, `includes`, regex substring tests) are embedded
as executable functions over the underlying character lists.  Browser and
network collaborators (page rendering, sitemap fetching, file writing) are
modelled as explicit oracles passed to the embedded functions.
-/

namespace DocScraper

/-- Boolean test that `pat` is a prefix of `s` (character lists);
embeds JavaScript `s.startsWith(pat)`. -/
def charsStart : List Char → List Char → Bool
  | [], _ => true
  | _ :: _, [] => false
  | p :: ps, c :: cs => p == c && charsStart ps cs

/-- Embeds JavaScript `s.startsWith(pat)`. -/
def strStarts (s pat : String) : Bool :=
  charsStart pat.toList s.toList

/-- Embeds JavaScript `s.includes(c)` for a single character `c`. -/
def strHasChar (s : String) (c : Char) : Bool :=
  s.toList.contains c

/-- Boolean test that `pat` occurs as a contiguous sublist of the second
argument; embeds JavaScript `s.includes(pat)` and regex substring tests. -/
def charsHaveSub (pat : List Char) : List Char → Bool
  | [] => pat.isEmpty
  | c :: cs => charsStart pat (c :: cs) || charsHaveSub pat cs

/-- Embeds JavaScript `s.includes(pat)` / an unanchored regex literal test. -/
def strHasSub (s pat : String) : Bool :=
  charsHaveSub pat.toList s.toList

/-- Boolean test that `pat` is a suffix of `s`; used for the `$`-anchored
file-extension regex of the mintlify exclude patterns. -/
def strEnds (s pat : String) : Bool :=
  charsStart pat.toList.reverse s.toList.reverse

/-- ASCII lowercasing, embedding the `i` flag of the extension regex. -/
def strLower (s : String) : String :=
  String.mk (s.toList.map Char.toLower)

/-- Embeds `Set.add` on a JavaScript `Set<string>` kept as an insertion-order
list: appends the element only when it is not yet present. -/
def setAdd (l : List String) (x : String) : List String :=
  if x ∈ l then l else l ++ [x]

/-- URL patterns of the platform configuration are embedded as Boolean
predicates on address strings (`RegExp.prototype.test`). -/
def Pattern : Type := String → Bool

/-- Embeds an unanchored regex that matches a literal substring,
e.g. `/\/docs\//` or `/\/login/`. -/
def subPattern (p : String) : Pattern :=
  fun u => strHasSub u p

/-- Literal suffixes matched by `/\.(css|js|json|xml|ico|png|jpg|jpeg|gif|svg)$/i`. -/
def extSuffixes : List String :=
  [".css", ".js", ".json", ".xml", ".ico", ".png", ".jpg", ".jpeg", ".gif", ".svg"]

/-- Embeds the case-insensitive, end-anchored file-extension regex of the
mintlify exclude patterns. -/
def extPattern : Pattern :=
  fun u => extSuffixes.any (fun e => strEnds (strLower u) e)

/-- Embeds the `Platform` union type from `types.ts`. -/
inductive Platform
  | docusaurus
  | mintlify
  | auto
deriving DecidableEq, Repr

/-- Embeds the `PlatformConfig` interface from `types.ts`: selector lists,
sitemap flag and the optional include (`urlPatterns`) and
`excludePatterns` lists. -/
structure PlatformConfig where
  navigationSelectors : List String
  contentSelectors : List String
  useSitemap : Bool
  urlPatterns : Option (List Pattern) := none
  excludePatterns : Option (List Pattern) := none

/-- Embeds `DocumentationScraper.getPlatformConfig`: the static
platform-to-configuration table. -/
def getPlatformConfig : Platform → PlatformConfig
  | .docusaurus =>
    { navigationSelectors :=
        ["nav a[href*=\"/docs\"]",
         ".menu a",
         ".sidebar a",
         "[class*=\"sidebar\"] a",
         "[class*=\"menu\"] a"]
      contentSelectors :=
        ["main article",
         ".markdown",
         "[class*=\"docItemContainer\"]",
         "[class*=\"docMainContainer\"]",
         "[class*=\"content\"]",
         "main",
         "article"]
      useSitemap := true }
  | .mintlify =>
    { navigationSelectors :=
        [".docs-sidebar a",
         ".sidebar a",
         "nav a",
         "[data-nav] a",
         ".navigation a",
         "[class*=\"sidebar\"] a",
         "[class*=\"nav\"] a",
         ".docs-nav a"]
      contentSelectors :=
        [".docs-content",
         ".markdown",
         "main article",
         "[class*=\"content\"]",
         ".prose",
         "main",
         "article",
         ".page-content"]
      useSitemap := true
      urlPatterns := some
        [subPattern "/docs/", subPattern "/guide/",
         subPattern "/api/", subPattern "/reference/"]
      excludePatterns := some
        [subPattern "/api/auth/", subPattern "/oauth/",
         subPattern "/login", subPattern "/signup",
         subPattern "/dashboard", subPattern "/settings",
         extPattern,
         subPattern "/assets/", subPattern "/static/"] }
  | .auto =>
    { navigationSelectors :=
        ["nav a[href*=\"/docs\"]",
         ".menu a",
         ".sidebar a",
         "[class*=\"sidebar\"] a",
         "[class*=\"menu\"] a",
         ".docs-sidebar a",
         "[data-nav] a",
         ".navigation a",
         ".docs-nav a"]
      contentSelectors :=
        ["main article",
         ".markdown",
         "[class*=\"docItemContainer\"]",
         "[class*=\"docMainContainer\"]",
         ".docs-content",
         "[class*=\"content\"]",
         ".prose",
         "main",
         "article",
         ".page-content"]
      useSitemap := true }

/-- Character list of the literal `<loc>` opening tag. -/
def locOpen : List Char :=
  ['<', 'l', 'o', 'c', '>']

/-- Character list of the literal `</loc>` closing tag. -/
def locClose : List Char :=
  ['<', '/', 'l', 'o', 'c', '>']

/-- Lazy body scan of the regex `/<loc>(.*?)<\/loc>/`: starting just after an
opening tag, consume characters (never a newline, since `.` does not match
newlines) until the first closing tag; return the body and the remainder
after the closing tag, or fail. -/
def scanLocBody : List Char → Option (List Char × List Char)
  | [] => none
  | c :: cs =>
    if charsStart locClose (c :: cs) then some ([], (c :: cs).drop 6)
    else if c == '\n' then none
    else
      match scanLocBody cs with
      | some (body, after) => some (c :: body, after)
      | none => none

/-- Fuel-indexed scan embedding `/<\/?loc>/g` replacement with the empty
string: removes every `<loc>` and `</loc>` occurrence, left to right. -/
def stripAux : Nat → List Char → List Char
  | 0, cs => cs
  | _ + 1, [] => []
  | fuel + 1, c :: cs =>
    if charsStart locOpen (c :: cs) then stripAux fuel ((c :: cs).drop 5)
    else if charsStart locClose (c :: cs) then stripAux fuel ((c :: cs).drop 6)
    else c :: stripAux fuel cs

/-- Embeds `match.replace(/<\/?loc>/g, '')` applied to a full regex match. -/
def stripLocTags (cs : List Char) : List Char :=
  stripAux cs.length cs

/-- Fuel-indexed global scan embedding `content.match(/<loc>(.*?)<\/loc>/g)`
followed by tag stripping of each match: at each position, if the pattern
matches, emit the stripped match and continue after it; otherwise advance
one character. -/
def extractLocsAux : Nat → List Char → List String
  | 0, _ => []
  | _ + 1, [] => []
  | fuel + 1, c :: cs =>
    if charsStart locOpen (c :: cs) then
      match scanLocBody ((c :: cs).drop 5) with
      | some (body, after) =>
        String.mk (stripLocTags body) :: extractLocsAux fuel after
      | none => extractLocsAux fuel cs
    else extractLocsAux fuel cs

/-- Embeds the `<loc>` extraction and tag stripping of the sitemap strategy in
`getDocumentationUrls` (lines 248-253 of `documentation-scraper.ts`). -/
def extractLocs (content : String) : List String :=
  extractLocsAux content.toList.length content.toList

/-- Boolean include-pattern filter of the sitemap strategy: with
`urlPatterns` configured an address must match at least one pattern, without
them every address passes. -/
def includeOk (config : PlatformConfig) (url : String) : Bool :=
  match config.urlPatterns with
  | some pats => pats.any (fun p => p url)
  | none => true

/-- Embeds the body of the `matches.forEach` callback of the sitemap strategy
(lines 252-267): keep an address only when it starts with the base address
and has no `#`, then apply the include patterns, adding to the discovered
set. -/
def sitemapStep (config : PlatformConfig) (baseUrl : String)
    (acc : List String) (url : String) : List String :=
  if strStarts url baseUrl && !strHasChar url '#' then
    if includeOk config url then setAdd acc url else acc
  else acc

/-- Discovered set (insertion order) produced by the sitemap strategy from
the extracted `<loc>` addresses. -/
def sitemapCollect (config : PlatformConfig) (baseUrl : String)
    (locs : List String) : List String :=
  locs.foldl (sitemapStep config baseUrl) []

/-- Lexicographic comparison of character lists by code point; the order
JavaScript's default `Array.prototype.sort` uses on address strings. -/
def charsLe : List Char → List Char → Bool
  | [], _ => true
  | _ :: _, [] => false
  | a :: as, b :: bs =>
    if a.toNat < b.toNat then true
    else if b.toNat < a.toNat then false
    else charsLe as bs

/-- Lexicographic string comparison (JavaScript default sort order). -/
def strLeB (a b : String) : Bool :=
  charsLe a.toList b.toList

/-- Lexicographic order on strings as a relation, for the sort. -/
def StrLe (a b : String) : Prop :=
  strLeB a b = true

instance : DecidableRel StrLe :=
  fun a b => instDecidableEqBool (strLeB a b) true

/-- Embeds `Array.from(set).sort()`: lexicographic sort of the discovered
addresses. -/
def sortStrings (l : List String) : List String :=
  List.insertionSort StrLe l

/-- Result of rendering one page during the recursive crawl: the outcome of
`hasDocumentationContent` and the harvested anchor addresses, in selector
order.  A page on which navigation fails is modelled by the oracle returning
`none`. -/
structure CrawlPage where
  hasContent : Bool
  links : List String

/-- Oracles for one discovery run: the sitemap fetch result (`none` models a
fetch failure) and the per-address page rendering. -/
structure DiscoveryEnv where
  sitemap : Option String
  site : String → Option CrawlPage

/-- Crawl bookkeeping state: `discoveredUrls`, `visitedUrls` and
`urlsToVisit`, each a JavaScript `Set<string>` kept in insertion order. -/
structure CrawlState where
  discovered : List String
  visited : List String
  frontier : List String

/-- Initial crawl state: empty discovered and visited sets, frontier seeded
with the base address alone. -/
def initialCrawlState (baseUrl : String) : CrawlState :=
  ⟨[], [], [baseUrl]⟩

/-- Boolean exclude-pattern test of the crawl's link filter: with
`excludePatterns` configured, a matching address is dropped. -/
def excludeHit (config : PlatformConfig) (url : String) : Bool :=
  match config.excludePatterns with
  | some pats => pats.any (fun p => p url)
  | none => false

/-- Embeds the `links.forEach` callback of the recursive crawl (lines
325-344): queue a harvested address only when it starts with the base
address, has no `#`, is not already visited and is not excluded. -/
def linkStep (config : PlatformConfig) (baseUrl : String)
    (visited : List String) (frontier : List String) (url : String) :
    List String :=
  if strStarts url baseUrl && !strHasChar url '#' then
    if url ∈ visited then frontier
    else if excludeHit config url then frontier
    else setAdd frontier url
  else frontier

/-- One iteration of the `while (urlsToVisit.size > 0)` crawl loop (lines
282-355): pop the first frontier address, skip it if visited, otherwise mark
it visited, render it, record it as discovered when it has documentation
content, and queue its filtered links. -/
def crawlStep (env : DiscoveryEnv) (config : PlatformConfig)
    (baseUrl : String) (st : CrawlState) : CrawlState :=
  match st.frontier with
  | [] => st
  | currentUrl :: rest =>
    if currentUrl ∈ st.visited then { st with frontier := rest }
    else
      let visited' := setAdd st.visited currentUrl
      match env.site currentUrl with
      | none => { st with visited := visited', frontier := rest }
      | some pg =>
        { discovered :=
            if pg.hasContent then setAdd st.discovered currentUrl
            else st.discovered
          visited := visited'
          frontier := pg.links.foldl (linkStep config baseUrl visited') rest }

/-- Fuel-indexed crawl loop; the source loops until the frontier is empty
(or its first element is the empty string, the falsy `!currentUrl` break). -/
def crawlLoop (env : DiscoveryEnv) (config : PlatformConfig)
    (baseUrl : String) : Nat → CrawlState → CrawlState
  | 0, st => st
  | fuel + 1, st =>
    match st.frontier with
    | [] => st
    | currentUrl :: _ =>
      if currentUrl = "" then st
      else crawlLoop env config baseUrl fuel (crawlStep env config baseUrl st)

/-- Discovered set of the sitemap strategy of `getDocumentationUrls` (lines
244-277): empty when the strategy is not attempted (`useSitemap` unset or
recursive crawling enabled) or when the sitemap fetch fails. -/
def sitemapStrategy (recursiveCrawling : Bool) (env : DiscoveryEnv)
    (config : PlatformConfig) (baseUrl : String) : List String :=
  if config.useSitemap && !recursiveCrawling then
    match env.sitemap with
    | some content => sitemapCollect config baseUrl (extractLocs content)
    | none => []
  else []

/-- Embeds `getDocumentationUrls` (lines 225-361) with the platform already
resolved to `config`: the sitemap strategy runs when `useSitemap` is set and
recursive crawling is disabled; when it yields a non-empty set after
filtering, that set is returned sorted, otherwise the recursive crawl runs
and its discovered set is returned sorted. -/
def getDocumentationUrls (recursiveCrawling : Bool) (env : DiscoveryEnv)
    (config : PlatformConfig) (baseUrl : String) (fuel : Nat) : List String :=
  if (sitemapStrategy recursiveCrawling env config baseUrl).isEmpty then
    sortStrings (crawlLoop env config baseUrl fuel
      (initialCrawlState baseUrl)).discovered
  else sortStrings (sitemapStrategy recursiveCrawling env config baseUrl)

/-- DOM indicators read by `detectPlatform` (lines 148-169). -/
structure PageIndicators where
  hasDocusaurusClass : Bool
  hasDocusaurusScript : Bool
  hasMintlifyMeta : Bool
  hasMintlifyClass : Bool

/-- Embeds the decision logic of `detectPlatform` (lines 171-180): docusaurus
indicators win, then mintlify indicators, else `auto`. -/
def detectPlatform (ind : PageIndicators) : Platform :=
  if ind.hasDocusaurusClass || ind.hasDocusaurusScript then .docusaurus
  else if ind.hasMintlifyMeta || ind.hasMintlifyClass then .mintlify
  else .auto

/-- Name of a platform as interpolated into the metadata header. -/
def platformName : Platform → String
  | .docusaurus => "docusaurus"
  | .mintlify => "mintlify"
  | .auto => "auto"

/-- Embeds the platform resolution of `scrape` (lines 453-465): the
configured platform, re-detected from the first discovered page when the
configured platform is `auto` and the URL list is non-empty with a truthy
first element. -/
def resolvePlatform (configured : Platform) (urls : List String)
    (firstPage : PageIndicators) : Platform :=
  match urls with
  | [] => configured
  | u :: _ =>
    if configured = .auto ∧ u ≠ "" then detectPlatform firstPage
    else configured

/-- Embeds the metadata header block of `scrape` (lines 470-475). -/
def metadataHeader (baseUrl : String) (p : Platform) (date : String) :
    String :=
  "# Documentation from: " ++ baseUrl ++ "\n" ++
  "Platform: " ++ platformName p ++ "\n" ++
  "Date: " ++ date ++ "\n\n" ++
  "---\n\n"

/-- Embeds JavaScript `String.prototype.trim`: strip leading and trailing
whitespace. -/
def strTrim (s : String) : String :=
  String.mk
    (((s.toList.dropWhile Char.isWhitespace).reverse.dropWhile
      Char.isWhitespace).reverse)

/-- Rendered page as seen by `extractContent`: its title, its address and the
result of `page.$(selector)` followed by `innerHTML` evaluation for each
selector (`none` when no element matches or evaluation throws). -/
structure PageModel where
  title : String
  url : String
  selectorResult : String → Option String

/-- Embeds the selector cascade of `extractContent` (lines 419-429): the
inner markup of the first selector that matches an element, or `none`. -/
def selectedContent (page : PageModel) : List String → Option String
  | [] => none
  | s :: rest =>
    match page.selectorResult s with
    | some html => some html
    | none => selectedContent page rest

/-- Embeds `extractContent` (lines 403-440): run the selector cascade over
the configured content selectors; on a truthy (non-empty) match, format the
section from the title, address, path and the converted markup; otherwise
return the empty string.  The Markdown conversion collaborator and the
`new URL(url).pathname` computation are passed as oracles. -/
def extractContent (turndownFn : String → String) (pathOf : String → String)
    (page : PageModel) (contentSelectors : List String) : String :=
  match selectedContent page contentSelectors with
  | some content =>
    if content = "" then ""
    else
      "## " ++ page.title ++ "\n\n**URL:** " ++ page.url ++
      "\n**Ruta:** " ++ pathOf page.url ++ "\n\n" ++ turndownFn content
  | none => ""

/-- Nested `code` element of a `pre` node as read by the `codeBlock`
turndown rule: its `className` and `textContent`. -/
structure CodeElem where
  className : String
  textContent : String

/-- A `pre` node reaching the `codeBlock` rule: the already-converted inner
`content` supplied by the turndown engine and the result of
`element.querySelector('code')`. -/
structure PreElem where
  codeChild : Option CodeElem

/-- First-match scan of the regex `/language-(\w+)/`: find the first
occurrence of the literal `language-` followed by at least one word
character and return the maximal word-character run after it. -/
def findLang : List Char → Option String
  | [] => none
  | c :: cs =>
    if charsStart ['l', 'a', 'n', 'g', 'u', 'a', 'g', 'e', '-'] (c :: cs) then
      let w := ((c :: cs).drop 9).takeWhile (fun d => d.isAlphanum || d == '_')
      if w.isEmpty then findLang cs else some (String.mk w)
    else findLang cs

/-- Embeds `className.match(/language-(\w+)/)?.[1]`. -/
def matchLanguage (className : String) : Option String :=
  findLang className.toList

/-- Embeds the replacement function of the `codeBlock` turndown rule (lines
192-200): fence tagged with the captured language (empty when absent),
containing the code's `textContent` — with the JavaScript `||` falling back
to the converted `content` when the code element is absent or its text is
the empty string. -/
def codeBlockReplacement (content : String) (node : PreElem) : String :=
  let lang :=
    match node.codeChild with
    | some code =>
      match matchLanguage code.className with
      | some l => l
      | none => ""
    | none => ""
  let body :=
    match node.codeChild with
    | some code => if code.textContent = "" then content else code.textContent
    | none => content
  "\n```" ++ lang ++ "\n" ++ body ++ "\n```\n"

/-- Element as read by the `admonition` turndown rule: its class list. -/
structure AdmonitionNode where
  classList : List String

/-- Embeds the filter of the `admonition` rule (lines 204-207):
`classList.contains('admonition')`. -/
def admonitionFilter (node : AdmonitionNode) : Bool :=
  node.classList.contains "admonition"

/-- Embeds the subtype extraction of the `admonition` rule (lines 210-213):
first class starting with `admonition-`, that marker removed, with the
JavaScript `||` falling back to `note` when absent or when the remainder is
empty. -/
def admonitionType (classes : List String) : String :=
  match classes.find? (fun c => strStarts c "admonition-") with
  | some c =>
    let t := String.mk (c.toList.drop 11)
    if t = "" then "note" else t
  | none => "note"

/-- Embeds the replacement function of the `admonition` rule (line 214). -/
def admonitionReplacement (content : String) (node : AdmonitionNode) :
    String :=
  "\n\n:::" ++ admonitionType node.classList ++ "\n" ++ content ++ "\n:::\n\n"

/-- Embeds the per-page processing loop of `scrape` (lines 478-504): fetch
and extract each address (the combined navigation plus extraction is the
`fetch` oracle, failing with an error message); append a non-blank section
followed by the separator; on failure, skip the address and continue. -/
def processPages (fetch : String → Except String String)
    (urls : List String) : String :=
  urls.foldl
    (fun acc url =>
      match fetch url with
      | .ok content =>
        if strTrim content = "" then acc
        else acc ++ content ++ "\n\n---\n\n"
      | .error _ => acc)
    ""

/-- Embeds `scrape` (lines 449-530) after URL discovery: assemble the
optional metadata header and the per-page sections, then persist the result
when an output path is given, propagating a write failure; the write
collaborator is the `write` oracle. -/
def scrape (includeMetadata : Bool) (baseUrl : String)
    (detectedPlatform : Platform) (date : String)
    (fetch : String → Except String String) (urls : List String)
    (outputPath : Option String)
    (write : String → String → Except String Unit) :
    Except String String :=
  let header :=
    if includeMetadata then metadataHeader baseUrl detectedPlatform date
    else ""
  let allContent := header ++ processPages fetch urls
  match outputPath with
  | some path =>
    match write path allContent with
    | .ok _ => .ok allContent
    | .error e => .error e
  | none => .ok allContent

/-- Structured absolute address, used to state the same-origin claim of the
specification: scheme, host, optional port, path-and-query, optional
fragment. -/
structure UrlParts where
  scheme : String
  host : String
  port : String
  path : String
  fragment : Option String

/-- Rendering of a structured address to the address string the scraper
works with. -/
def renderUrl (u : UrlParts) : String :=
  u.scheme ++ "://" ++ u.host ++
  (if u.port = "" then "" else ":" ++ u.port) ++
  u.path ++
  (match u.fragment with
   | some f => "#" ++ f
   | none => "")

/-- Same-origin relation of the specification's glossary: equal scheme, host
and port. -/
def sameOriginB (a b : UrlParts) : Bool :=
  a.scheme == b.scheme && a.host == b.host && a.port == b.port

/-- Sitemap pipeline as the specification words it (claim C2), for
refinement comparison with `sitemapCollect`: prefix-and-fragment filter,
then include patterns, then exclude patterns dropping any match. -/
def sitemapCollectClaimed (config : PlatformConfig) (baseUrl : String)
    (locs : List String) : List String :=
  ((locs.foldl
      (fun acc url =>
        if strStarts url baseUrl && !strHasChar url '#' then
          if includeOk config url then setAdd acc url else acc
        else acc)
      []).filter
    (fun url => !excludeHit config url))

/-- Combined keep-condition of the sitemap strategy for one address:
base-address prefix, no fragment marker, include patterns. -/
def sitemapPass (config : PlatformConfig) (baseUrl url : String) : Bool :=
  strStarts url baseUrl && !strHasChar url '#' && includeOk config url

/-- Combined keep-condition of the crawl's link filter apart from the
visited check and exclude patterns: base-address prefix and no fragment
marker.  This is also the invariant property of discovered addresses. -/
def goodUrl (baseUrl url : String) : Bool :=
  strStarts url baseUrl && !strHasChar url '#'

/-! Basic lemmas about the embedded string operations, the set-insertion
helper and the lexicographic sort. -/

theorem charsStart_refl (l : List Char) : charsStart l l = true := by
  induction l with
  | nil => rfl
  | cons a as ih => simp [charsStart, ih]

theorem charsStart_append (l m : List Char) :
    charsStart l (l ++ m) = true := by
  induction l with
  | nil => rfl
  | cons a as ih => simp [charsStart, ih]

theorem string_toList_append (a b : String) :
    (a ++ b).toList = a.toList ++ b.toList := by
  cases a
  cases b
  rfl

theorem strStarts_self (s : String) : strStarts s s = true :=
  charsStart_refl s.toList

theorem strStarts_append_self (a b : String) :
    strStarts (a ++ b) a = true := by
  unfold strStarts
  rw [string_toList_append]
  exact charsStart_append a.toList b.toList

theorem mem_setAdd (l : List String) (x u : String) :
    u ∈ setAdd l x ↔ u ∈ l ∨ u = x := by
  unfold setAdd
  by_cases h : x ∈ l
  · simp only [if_pos h]
    constructor
    · exact Or.inl
    · rintro (hu | rfl)
      · exact hu
      · exact h
  · simp [if_neg h]

theorem setAdd_nodup (l : List String) (x : String) (h : l.Nodup) :
    (setAdd l x).Nodup := by
  unfold setAdd
  by_cases hx : x ∈ l
  · simpa [if_pos hx] using h
  · simp only [if_neg hx]
    simpa [List.nodup_append] using ⟨h, hx⟩

theorem charsLe_total (as bs : List Char) :
    charsLe as bs = true ∨ charsLe bs as = true := by
  induction as generalizing bs with
  | nil => exact Or.inl rfl
  | cons a as ih =>
    cases bs with
    | nil => exact Or.inr rfl
    | cons b bs =>
      by_cases hab : a.toNat < b.toNat
      · left
        simp [charsLe, hab]
      · by_cases hba : b.toNat < a.toNat
        · right
          simp [charsLe, hba]
        · rcases ih bs with h | h
          · left
            simp [charsLe, hab, hba, h]
          · right
            simp [charsLe, hab, hba, h]

theorem charsLe_trans (as bs cs : List Char)
    (h1 : charsLe as bs = true) (h2 : charsLe bs cs = true) :
    charsLe as cs = true := by
  induction as generalizing bs cs with
  | nil => rfl
  | cons a as ih =>
    cases bs with
    | nil => simp [charsLe] at h1
    | cons b bs =>
      cases cs with
      | nil => simp [charsLe] at h2
      | cons c cs =>
        simp only [charsLe] at h1 h2 ⊢
        by_cases hab : a.toNat < b.toNat
        · by_cases hbc : b.toNat < c.toNat
          · have hac : a.toNat < c.toNat := Nat.lt_trans hab hbc
            simp [hac]
          · by_cases hcb : c.toNat < b.toNat
            · rw [if_neg hbc, if_pos hcb] at h2
              simp at h2
            · have hac : a.toNat < c.toNat := by omega
              simp [hac]
        · by_cases hba : b.toNat < a.toNat
          · rw [if_neg hab, if_pos hba] at h1
            simp at h1
          · by_cases hbc : b.toNat < c.toNat
            · have hac : a.toNat < c.toNat := by omega
              simp [hac]
            · by_cases hcb : c.toNat < b.toNat
              · rw [if_neg hbc, if_pos hcb] at h2
                simp at h2
              · have hac : ¬ a.toNat < c.toNat := by omega
                have hca : ¬ c.toNat < a.toNat := by omega
                rw [if_neg hab, if_neg hba] at h1
                rw [if_neg hbc, if_neg hcb] at h2
                rw [if_neg hac, if_neg hca]
                exact ih bs cs h1 h2

instance : IsTotal String StrLe :=
  ⟨fun a b => by
    unfold StrLe strLeB
    exact charsLe_total a.toList b.toList⟩

instance : IsTrans String StrLe :=
  ⟨fun a b c h1 h2 => charsLe_trans a.toList b.toList c.toList h1 h2⟩

theorem mem_sortStrings (l : List String) (u : String) :
    u ∈ sortStrings l ↔ u ∈ l :=
  (List.perm_insertionSort StrLe l).mem_iff

theorem sortStrings_nodup (l : List String) (h : l.Nodup) :
    (sortStrings l).Nodup :=
  ((List.perm_insertionSort StrLe l).nodup_iff).mpr h

theorem sortStrings_sorted (l : List String) :
    (sortStrings l).Sorted StrLe :=
  List.sorted_insertionSort StrLe l

/-! Lemmas about the sitemap strategy's filter pipeline. -/

theorem sitemapStep_eq (config : PlatformConfig) (baseUrl : String)
    (acc : List String) (url : String) :
    sitemapStep config baseUrl acc url =
      if sitemapPass config baseUrl url then setAdd acc url else acc := by
  unfold sitemapStep sitemapPass
  cases h1 : strStarts url baseUrl <;>
    cases h2 : strHasChar url '#' <;>
    cases h3 : includeOk config url <;>
    simp [h1, h2, h3]

theorem mem_foldl_sitemapStep (config : PlatformConfig) (baseUrl : String)
    (locs : List String) :
    ∀ (acc : List String) (u : String),
      u ∈ locs.foldl (sitemapStep config baseUrl) acc ↔
        u ∈ acc ∨ (u ∈ locs ∧ sitemapPass config baseUrl u = true) := by
  induction locs with
  | nil => simp
  | cons loc locs ih =>
    intro acc u
    rw [List.foldl_cons, ih, sitemapStep_eq]
    by_cases hp : sitemapPass config baseUrl loc = true
    · rw [if_pos hp, mem_setAdd]
      constructor
      · rintro ((hu | rfl) | ⟨hmem, hpass⟩)
        · exact Or.inl hu
        · exact Or.inr ⟨List.mem_cons_self _ _, hp⟩
        · exact Or.inr ⟨List.mem_cons_of_mem _ hmem, hpass⟩
      · rintro (hu | ⟨hmem, hpass⟩)
        · exact Or.inl (Or.inl hu)
        · rcases List.mem_cons.mp hmem with rfl | hmem
          · exact Or.inl (Or.inr rfl)
          · exact Or.inr ⟨hmem, hpass⟩
    · rw [if_neg hp]
      constructor
      · rintro (hu | ⟨hmem, hpass⟩)
        · exact Or.inl hu
        · exact Or.inr ⟨List.mem_cons_of_mem _ hmem, hpass⟩
      · rintro (hu | ⟨hmem, hpass⟩)
        · exact Or.inl hu
        · rcases List.mem_cons.mp hmem with rfl | hmem
          · exact absurd hpass hp
          · exact Or.inr ⟨hmem, hpass⟩

theorem mem_sitemapCollect (config : PlatformConfig) (baseUrl : String)
    (locs : List String) (u : String) :
    u ∈ sitemapCollect config baseUrl locs ↔
      u ∈ locs ∧ sitemapPass config baseUrl u = true := by
  unfold sitemapCollect
  rw [mem_foldl_sitemapStep]
  simp

theorem foldl_sitemapStep_nodup (config : PlatformConfig) (baseUrl : String)
    (locs : List String) :
    ∀ acc : List String, acc.Nodup →
      (locs.foldl (sitemapStep config baseUrl) acc).Nodup := by
  induction locs with
  | nil => exact fun acc h => h
  | cons loc locs ih =>
    intro acc hacc
    rw [List.foldl_cons, sitemapStep_eq]
    by_cases hp : sitemapPass config baseUrl loc = true
    · exact ih _ (by rw [if_pos hp]; exact setAdd_nodup _ _ hacc)
    · exact ih _ (by rwa [if_neg hp])

theorem sitemapCollect_nodup (config : PlatformConfig) (baseUrl : String)
    (locs : List String) : (sitemapCollect config baseUrl locs).Nodup :=
  foldl_sitemapStep_nodup config baseUrl locs [] List.nodup_nil

/-! Lemmas about the recursive crawl loop. -/

theorem mem_linkStep (config : PlatformConfig) (baseUrl : String)
    (vis fr : List String) (url u : String)
    (h : u ∈ linkStep config baseUrl vis fr url) :
    u ∈ fr ∨ (u = url ∧ goodUrl baseUrl u = true ∧ u ∉ vis) := by
  unfold linkStep at h
  by_cases hg : (strStarts url baseUrl && !strHasChar url '#') = true
  · rw [if_pos hg] at h
    by_cases hv : url ∈ vis
    · rw [if_pos hv] at h
      exact Or.inl h
    · rw [if_neg hv] at h
      by_cases hx : excludeHit config url = true
      · rw [if_pos hx] at h
        exact Or.inl h
      · rw [if_neg hx, mem_setAdd] at h
        rcases h with h | rfl
        · exact Or.inl h
        · exact Or.inr ⟨rfl, hg, hv⟩
  · rw [if_neg hg] at h
    exact Or.inl h

theorem linkStep_nodup (config : PlatformConfig) (baseUrl : String)
    (vis fr : List String) (url : String) (h : fr.Nodup) :
    (linkStep config baseUrl vis fr url).Nodup := by
  unfold linkStep
  by_cases hg : (strStarts url baseUrl && !strHasChar url '#') = true
  · rw [if_pos hg]
    by_cases hv : url ∈ vis
    · rwa [if_pos hv]
    · rw [if_neg hv]
      by_cases hx : excludeHit config url = true
      · rwa [if_pos hx]
      · rw [if_neg hx]
        exact setAdd_nodup _ _ h
  · rwa [if_neg hg]

theorem mem_foldl_linkStep (config : PlatformConfig) (baseUrl : String)
    (vis : List String) (links : List String) :
    ∀ (fr : List String) (u : String),
      u ∈ links.foldl (linkStep config baseUrl vis) fr →
        u ∈ fr ∨ (goodUrl baseUrl u = true ∧ u ∉ vis) := by
  induction links with
  | nil => exact fun fr u h => Or.inl h
  | cons l ls ih =>
    intro fr u h
    rw [List.foldl_cons] at h
    rcases ih _ u h with h' | h'
    · rcases mem_linkStep config baseUrl vis fr l u h' with h'' | ⟨_, hgood, hnv⟩
      · exact Or.inl h''
      · exact Or.inr ⟨hgood, hnv⟩
    · exact Or.inr h'

theorem foldl_linkStep_nodup (config : PlatformConfig) (baseUrl : String)
    (vis : List String) (links : List String) :
    ∀ fr : List String, fr.Nodup →
      (links.foldl (linkStep config baseUrl vis) fr).Nodup := by
  induction links with
  | nil => exact fun fr h => h
  | cons l ls ih =>
    intro fr hfr
    rw [List.foldl_cons]
    exact ih _ (linkStep_nodup config baseUrl vis fr l hfr)

theorem crawlStep_disjoint (env : DiscoveryEnv) (config : PlatformConfig)
    (baseUrl : String) (st : CrawlState)
    (hdisj : ∀ u ∈ st.visited, u ∉ st.frontier)
    (hfr : st.frontier.Nodup) :
    (∀ u ∈ (crawlStep env config baseUrl st).visited,
        u ∉ (crawlStep env config baseUrl st).frontier) ∧
      (crawlStep env config baseUrl st).frontier.Nodup := by
  obtain ⟨d, v, f⟩ := st
  cases f with
  | nil => exact ⟨hdisj, hfr⟩
  | cons cur rest =>
    simp only [crawlStep]
    have hcur : cur ∉ rest := (List.nodup_cons.mp hfr).1
    have hrest : rest.Nodup := (List.nodup_cons.mp hfr).2
    by_cases hv : cur ∈ v
    · rw [if_pos hv]
      refine ⟨fun u hu hmem => ?_, hrest⟩
      exact hdisj u hu (List.mem_cons_of_mem _ hmem)
    · rw [if_neg hv]
      cases hsite : env.site cur with
      | none =>
        refine ⟨fun u hu hmem => ?_, hrest⟩
        rcases (mem_setAdd _ _ _).mp hu with hu' | rfl
        · exact hdisj u hu' (List.mem_cons_of_mem _ hmem)
        · exact hcur hmem
      | some pg =>
        refine ⟨fun u hu hmem => ?_,
          foldl_linkStep_nodup config baseUrl _ pg.links rest hrest⟩
        rcases mem_foldl_linkStep config baseUrl _ pg.links rest u hmem with
          hmem' | ⟨_, hnv⟩
        · rcases (mem_setAdd _ _ _).mp hu with hu' | rfl
          · exact hdisj u hu' (List.mem_cons_of_mem _ hmem')
          · exact hcur hmem'
        · exact hnv hu

theorem crawlLoop_disjoint (env : DiscoveryEnv) (config : PlatformConfig)
    (baseUrl : String) :
    ∀ (fuel : Nat) (st : CrawlState),
      (∀ u ∈ st.visited, u ∉ st.frontier) → st.frontier.Nodup →
        (∀ u ∈ (crawlLoop env config baseUrl fuel st).visited,
            u ∉ (crawlLoop env config baseUrl fuel st).frontier) ∧
          (crawlLoop env config baseUrl fuel st).frontier.Nodup := by
  intro fuel
  induction fuel with
  | zero => exact fun st hdisj hfr => ⟨hdisj, hfr⟩
  | succ fuel ih =>
    intro st hdisj hfr
    have hstep := crawlStep_disjoint env config baseUrl st hdisj hfr
    obtain ⟨d, v, f⟩ := st
    cases f with
    | nil => exact ⟨hdisj, hfr⟩
    | cons cur rest =>
      simp only [crawlLoop]
      by_cases hcur : cur = ""
      · rw [if_pos hcur]
        exact ⟨hdisj, hfr⟩
      · rw [if_neg hcur]
        exact ih _ hstep.1 hstep.2

theorem crawlStep_good (env : DiscoveryEnv) (config : PlatformConfig)
    (baseUrl : String) (st : CrawlState)
    (hfr : ∀ u ∈ st.frontier, goodUrl baseUrl u = true)
    (hd : ∀ u ∈ st.discovered, goodUrl baseUrl u = true)
    (hnd : st.discovered.Nodup) :
    (∀ u ∈ (crawlStep env config baseUrl st).frontier,
        goodUrl baseUrl u = true) ∧
      (∀ u ∈ (crawlStep env config baseUrl st).discovered,
          goodUrl baseUrl u = true) ∧
      (crawlStep env config baseUrl st).discovered.Nodup := by
  obtain ⟨d, v, f⟩ := st
  cases f with
  | nil => exact ⟨hfr, hd, hnd⟩
  | cons cur rest =>
    have hrest : ∀ u ∈ rest, goodUrl baseUrl u = true :=
      fun u hu => hfr u (List.mem_cons_of_mem _ hu)
    by_cases hv : cur ∈ v
    · simp only [crawlStep, if_pos hv]
      exact ⟨hrest, hd, hnd⟩
    · cases hsite : env.site cur with
      | none =>
        simp only [crawlStep, if_neg hv, hsite]
        exact ⟨hrest, hd, hnd⟩
      | some pg =>
        simp only [crawlStep, if_neg hv, hsite]
        refine ⟨fun u hu => ?_, fun u hu => ?_, ?_⟩
        · rcases mem_foldl_linkStep config baseUrl _ pg.links rest u hu with
            hmem | ⟨hgood, _⟩
          · exact hrest u hmem
          · exact hgood
        · by_cases hc : pg.hasContent = true
          · rw [if_pos hc] at hu
            rcases (mem_setAdd _ _ _).mp hu with hu' | rfl
            · exact hd u hu'
            · exact hfr u (List.mem_cons_self _ _)
          · rw [if_neg hc] at hu
            exact hd u hu
        · by_cases hc : pg.hasContent = true
          · rw [if_pos hc]
            exact setAdd_nodup _ _ hnd
          · rwa [if_neg hc]

theorem crawlLoop_good (env : DiscoveryEnv) (config : PlatformConfig)
    (baseUrl : String) :
    ∀ (fuel : Nat) (st : CrawlState),
      (∀ u ∈ st.frontier, goodUrl baseUrl u = true) →
      (∀ u ∈ st.discovered, goodUrl baseUrl u = true) →
      st.discovered.Nodup →
        (∀ u ∈ (crawlLoop env config baseUrl fuel st).discovered,
            goodUrl baseUrl u = true) ∧
          (crawlLoop env config baseUrl fuel st).discovered.Nodup := by
  intro fuel
  induction fuel with
  | zero => exact fun st _ hd hnd => ⟨hd, hnd⟩
  | succ fuel ih =>
    intro st hfr hd hnd
    have hstep := crawlStep_good env config baseUrl st hfr hd hnd
    obtain ⟨d, v, f⟩ := st
    cases f with
    | nil => exact ⟨hd, hnd⟩
    | cons cur rest =>
      simp only [crawlLoop]
      by_cases hcur : cur = ""
      · rw [if_pos hcur]
        exact ⟨hd, hnd⟩
      · rw [if_neg hcur]
        exact ih _ hstep.1 hstep.2.1 hstep.2.2

/-! Lemmas about the assembled discovery function. -/

theorem sitemapPass_eq (config : PlatformConfig) (baseUrl url : String) :
    sitemapPass config baseUrl url = (goodUrl baseUrl url && includeOk config url) :=
  rfl

theorem mem_sitemapStrategy (recursiveCrawling : Bool) (env : DiscoveryEnv)
    (config : PlatformConfig) (baseUrl u : String)
    (h : u ∈ sitemapStrategy recursiveCrawling env config baseUrl) :
    sitemapPass config baseUrl u = true := by
  unfold sitemapStrategy at h
  by_cases hc : (config.useSitemap && !recursiveCrawling) = true
  · rw [if_pos hc] at h
    cases henv : env.sitemap with
    | none =>
      rw [henv] at h
      exact absurd h (List.not_mem_nil u)
    | some content =>
      rw [henv] at h
      exact ((mem_sitemapCollect config baseUrl (extractLocs content) u).mp h).2
  · rw [if_neg hc] at h
    exact absurd h (List.not_mem_nil u)

theorem sitemapStrategy_nodup (recursiveCrawling : Bool) (env : DiscoveryEnv)
    (config : PlatformConfig) (baseUrl : String) :
    (sitemapStrategy recursiveCrawling env config baseUrl).Nodup := by
  unfold sitemapStrategy
  by_cases hc : (config.useSitemap && !recursiveCrawling) = true
  · rw [if_pos hc]
    cases henv : env.sitemap with
    | none => exact List.nodup_nil
    | some content => exact sitemapCollect_nodup config baseUrl (extractLocs content)
  · rw [if_neg hc]
    exact List.nodup_nil

theorem sitemapStrategy_some (recursiveCrawling : Bool) (env : DiscoveryEnv)
    (config : PlatformConfig) (baseUrl content : String)
    (h : env.sitemap = some content)
    (hc : (config.useSitemap && !recursiveCrawling) = true) :
    sitemapStrategy recursiveCrawling env config baseUrl =
      sitemapCollect config baseUrl (extractLocs content) := by
  unfold sitemapStrategy
  rw [if_pos hc, h]

theorem initial_good (baseUrl : String) (hb : strHasChar baseUrl '#' = false) :
    ∀ u ∈ (initialCrawlState baseUrl).frontier, goodUrl baseUrl u = true := by
  intro u hu
  rcases List.mem_singleton.mp hu with rfl
  simp [goodUrl, strStarts_self, hb]

theorem crawl_discovered_good (env : DiscoveryEnv) (config : PlatformConfig)
    (baseUrl : String) (fuel : Nat) (hb : strHasChar baseUrl '#' = false) :
    (∀ u ∈ (crawlLoop env config baseUrl fuel
        (initialCrawlState baseUrl)).discovered, goodUrl baseUrl u = true) ∧
      (crawlLoop env config baseUrl fuel
        (initialCrawlState baseUrl)).discovered.Nodup :=
  crawlLoop_good env config baseUrl fuel (initialCrawlState baseUrl)
    (initial_good baseUrl hb)
    (fun u hu => absurd hu (List.not_mem_nil u))
    List.nodup_nil

/-! Lemmas about platform resolution, content extraction and assembly. -/

theorem resolvePlatform_not_auto (configured : Platform) (urls : List String)
    (ind : PageIndicators) (h : configured ≠ .auto) :
    resolvePlatform configured urls ind = configured := by
  cases urls with
  | nil => rfl
  | cons u rest =>
    simp only [resolvePlatform]
    rw [if_neg]
    intro hc
    exact h hc.1

theorem scrape_ok_out (im : Bool) (baseUrl : String) (p : Platform)
    (date : String) (fetch : String → Except String String)
    (urls : List String) (outputPath : Option String)
    (write : String → String → Except String Unit) (out : String)
    (h : scrape im baseUrl p date fetch urls outputPath write =
      Except.ok out) :
    out = (if im then metadataHeader baseUrl p date else "") ++
      processPages fetch urls := by
  cases outputPath with
  | none =>
    dsimp only [scrape] at h
    exact (Except.ok.inj h).symm
  | some path =>
    dsimp only [scrape] at h
    cases hw : write path
        ((if im then metadataHeader baseUrl p date else "") ++
          processPages fetch urls) with
    | ok u =>
      rw [hw] at h
      exact (Except.ok.inj h).symm
    | error e =>
      rw [hw] at h
      exact Except.noConfusion h

theorem selectedContent_none (page : PageModel) :
    ∀ l : List String, (∀ s ∈ l, page.selectorResult s = none) →
      selectedContent page l = none := by
  intro l
  induction l with
  | nil => exact fun _ => rfl
  | cons a rest ih =>
    intro hall
    have ha := hall a (List.mem_cons_self a rest)
    simp only [selectedContent, ha]
    exact ih (fun t ht => hall t (List.mem_cons_of_mem a ht))

theorem selectedContent_append_none (page : PageModel)
    (before : List String)
    (h : ∀ t ∈ before, page.selectorResult t = none) :
    ∀ rest : List String,
      selectedContent page (before ++ rest) = selectedContent page rest := by
  induction before with
  | nil => exact fun rest => rfl
  | cons a bs ih =>
    intro rest
    have ha := h a (List.mem_cons_self a bs)
    simp only [List.cons_append, selectedContent, ha]
    exact ih (fun t ht => h t (List.mem_cons_of_mem a ht)) rest

theorem admonitionType_eq_none (classes : List String)
    (hfind : classes.find? (fun c => strStarts c "admonition-") = none) :
    admonitionType classes = "note" := by
  unfold admonitionType
  rw [hfind]

theorem admonitionType_eq_some (classes : List String) (sub : String)
    (hsub : sub ≠ "")
    (hfind : classes.find? (fun c => strStarts c "admonition-") =
      some ("admonition-" ++ sub)) :
    admonitionType classes = sub := by
  unfold admonitionType
  rw [hfind]
  have ht : String.mk (("admonition-" ++ sub).toList.drop 11) = sub := by
    rw [string_toList_append]
    have h11 : ("admonition-" : String).toList.length = 11 := rfl
    rw [← h11, List.drop_left]
    rfl
  show (if String.mk (("admonition-" ++ sub).toList.drop 11) = "" then "note"
    else String.mk (("admonition-" ++ sub).toList.drop 11)) = sub
  rw [ht, if_neg hsub]

/-! Claim theorems. -/

/-- C1 (amended): every address returned by a discovery run — sitemap or
recursive — starts with the base address string and contains no `#`; the
result is sorted lexicographically and has no duplicates; and, with no
include patterns configured, the sorted sitemap filter output contains
exactly the extracted addresses that start with the base address and are
fragment-free.  (The source tests a string prefix, not same-origin.) -/
theorem discovery_result_invariant (recursiveCrawling : Bool)
    (env : DiscoveryEnv) (config : PlatformConfig) (baseUrl : String)
    (fuel : Nat) (hb : strHasChar baseUrl '#' = false) :
    (∀ u ∈ getDocumentationUrls recursiveCrawling env config baseUrl fuel,
        strStarts u baseUrl = true ∧ strHasChar u '#' = false) ∧
      (getDocumentationUrls recursiveCrawling env config baseUrl
        fuel).Sorted StrLe ∧
      (getDocumentationUrls recursiveCrawling env config baseUrl fuel).Nodup ∧
      (config.urlPatterns = none →
        ∀ (locs : List String) (u : String),
          u ∈ sortStrings (sitemapCollect config baseUrl locs) ↔
            u ∈ locs ∧ strStarts u baseUrl = true ∧
              strHasChar u '#' = false) := by
  refine ⟨?_, ?_, ?_, ?_⟩
  · intro u hu
    unfold getDocumentationUrls at hu
    by_cases hA :
      (sitemapStrategy recursiveCrawling env config baseUrl).isEmpty = true
    · rw [if_pos hA, mem_sortStrings] at hu
      have hg := (crawl_discovered_good env config baseUrl fuel hb).1 u hu
      simpa [goodUrl, Bool.and_eq_true, Bool.not_eq_true'] using hg
    · rw [if_neg hA, mem_sortStrings] at hu
      have hp := mem_sitemapStrategy recursiveCrawling env config baseUrl u hu
      rw [sitemapPass_eq, Bool.and_eq_true] at hp
      simpa [goodUrl, Bool.and_eq_true, Bool.not_eq_true'] using hp.1
  · unfold getDocumentationUrls
    by_cases hA :
      (sitemapStrategy recursiveCrawling env config baseUrl).isEmpty = true
    · rw [if_pos hA]
      exact sortStrings_sorted _
    · rw [if_neg hA]
      exact sortStrings_sorted _
  · unfold getDocumentationUrls
    by_cases hA :
      (sitemapStrategy recursiveCrawling env config baseUrl).isEmpty = true
    · rw [if_pos hA]
      exact sortStrings_nodup _ (crawl_discovered_good env config baseUrl fuel hb).2
    · rw [if_neg hA]
      exact sortStrings_nodup _
        (sitemapStrategy_nodup recursiveCrawling env config baseUrl)
  · intro hnone locs u
    rw [mem_sortStrings, mem_sitemapCollect]
    simp [sitemapPass, includeOk, hnone, Bool.and_eq_true, Bool.not_eq_true',
      and_assoc]

theorem discovery_result_invariant_witness :
    strStarts "https://docs.example.com/a" "https://docs.example.com" = true ∧
      strHasChar "https://docs.example.com/a" '#' = false :=
  (discovery_result_invariant false
      ⟨some "<loc>https://docs.example.com/a</loc>", fun _ => none⟩
      (getPlatformConfig .docusaurus) "https://docs.example.com" 0
      (by decide)).1
    "https://docs.example.com/a" (by decide)

/-- C1 is false as stated: a sitemap address on the host
`example.com.evil.org` starts with the base address string
`https://example.com`, so discovery returns it, yet it is not same-origin
with the base address. -/
theorem discovery_same_origin_counterexample :
    renderUrl ⟨"https", "example.com.evil.org", "", "/x", none⟩ ∈
      getDocumentationUrls false
        ⟨some ("<loc>" ++
            renderUrl ⟨"https", "example.com.evil.org", "", "/x", none⟩ ++
            "</loc>"),
          fun _ => none⟩
        (getPlatformConfig .docusaurus)
        (renderUrl ⟨"https", "example.com", "", "", none⟩) 0 ∧
      sameOriginB ⟨"https", "example.com", "", "", none⟩
        ⟨"https", "example.com.evil.org", "", "/x", none⟩ = false := by
  decide

/-- C2 (amended): the sitemap strategy extracts the `<loc>` addresses and
keeps exactly those that start with the base address, contain no `#`, and
match at least one include pattern when include patterns are configured;
the exclude patterns are not applied by the sitemap strategy. -/
theorem sitemap_filter_characterization (config : PlatformConfig)
    (baseUrl content u : String) :
    u ∈ sitemapCollect config baseUrl (extractLocs content) ↔
      u ∈ extractLocs content ∧ strStarts u baseUrl = true ∧
        strHasChar u '#' = false ∧ includeOk config u = true := by
  rw [mem_sitemapCollect]
  simp [sitemapPass, Bool.and_eq_true, Bool.not_eq_true', and_assoc]

/-- C2 is false as stated: with the mintlify configuration, the address
`https://docs.example.com/docs/login` matches the exclude pattern
`/\/login/` yet the sitemap strategy keeps it; the claimed pipeline with
exclude filtering would drop it. -/
theorem sitemap_exclude_counterexample :
    sitemapCollect (getPlatformConfig .mintlify) "https://docs.example.com"
        (extractLocs "<loc>https://docs.example.com/docs/login</loc>") =
      ["https://docs.example.com/docs/login"] ∧
      excludeHit (getPlatformConfig .mintlify)
          "https://docs.example.com/docs/login" = true ∧
      sitemapCollectClaimed (getPlatformConfig .mintlify)
          "https://docs.example.com"
          (extractLocs "<loc>https://docs.example.com/docs/login</loc>") =
        [] := by
  decide

/-- C4: throughout every recursive crawl from the seeded initial state, the
visited set and the frontier are disjoint: no address is simultaneously
recorded as visited and queued for visiting. -/
theorem crawl_visited_frontier_disjoint (env : DiscoveryEnv)
    (config : PlatformConfig) (baseUrl : String) (fuel : Nat) :
    ((crawlLoop env config baseUrl fuel
          (initialCrawlState baseUrl)).visited.all
        (fun u => decide (u ∉ (crawlLoop env config baseUrl fuel
          (initialCrawlState baseUrl)).frontier))) = true := by
  have h := crawlLoop_disjoint env config baseUrl fuel
    (initialCrawlState baseUrl)
    (fun u hu => absurd hu (List.not_mem_nil u))
    (List.nodup_singleton baseUrl)
  rw [List.all_eq_true]
  intro u hu
  exact decide_eq_true (h.1 u hu)

/-- C10: when the sitemap strategy is attempted (`useSitemap` set, recursive
crawling disabled) and completes without error but yields zero addresses
after filtering, discovery proceeds to the recursive crawl rather than
returning the empty set. -/
theorem sitemap_empty_falls_back (env : DiscoveryEnv)
    (config : PlatformConfig) (baseUrl content : String) (fuel : Nat)
    (huse : config.useSitemap = true)
    (hcontent : env.sitemap = some content)
    (hempty : sitemapCollect config baseUrl (extractLocs content) = []) :
    getDocumentationUrls false env config baseUrl fuel =
      sortStrings (crawlLoop env config baseUrl fuel
        (initialCrawlState baseUrl)).discovered := by
  have hs := sitemapStrategy_some false env config baseUrl content hcontent
    (by simp [huse])
  unfold getDocumentationUrls
  rw [hs, hempty]
  rfl

theorem sitemap_empty_falls_back_witness :
    getDocumentationUrls false
        ⟨some "<loc>https://other.com/x</loc>",
          fun u => if u = "https://d.ex" then some ⟨true, []⟩ else none⟩
        (getPlatformConfig .docusaurus) "https://d.ex" 2 =
      sortStrings (crawlLoop
        ⟨some "<loc>https://other.com/x</loc>",
          fun u => if u = "https://d.ex" then some ⟨true, []⟩ else none⟩
        (getPlatformConfig .docusaurus) "https://d.ex" 2
        (initialCrawlState "https://d.ex")).discovered :=
  sitemap_empty_falls_back _ _ _ _ _ rfl rfl (by decide)

/-- C3: the `auto` configuration carries no include and no exclude patterns
and its content selectors contain every docusaurus and mintlify content
selector, but its navigation selectors miss the mintlify selectors `nav a`
and `[class*="nav"] a`, so — contrary to the source's own comment that it
combines all platform selectors — the navigation-selector union claim
fails. -/
theorem auto_config_union_divergence :
    ("nav a" ∈ (getPlatformConfig .mintlify).navigationSelectors ∧
      "nav a" ∉ (getPlatformConfig .auto).navigationSelectors) ∧
    ("[class*=\"nav\"] a" ∈
        (getPlatformConfig .mintlify).navigationSelectors ∧
      "[class*=\"nav\"] a" ∉
        (getPlatformConfig .auto).navigationSelectors) ∧
    (∀ s ∈ (getPlatformConfig .docusaurus).contentSelectors,
      s ∈ (getPlatformConfig .auto).contentSelectors) ∧
    (∀ s ∈ (getPlatformConfig .mintlify).contentSelectors,
      s ∈ (getPlatformConfig .auto).contentSelectors) ∧
    (getPlatformConfig .auto).urlPatterns.isNone = true ∧
    (getPlatformConfig .auto).excludePatterns.isNone = true := by
  decide

/-- C5 is false as stated: with the configured platform `auto` and a first
discovered page showing no platform indicators, the resolved platform is
`auto` itself, and the metadata header contains `Platform: auto`. -/
theorem metadata_platform_auto_counterexample :
    resolvePlatform .auto ["https://docs.example.com/a"]
        ⟨false, false, false, false⟩ = Platform.auto ∧
      strHasSub
        (metadataHeader "https://docs.example.com"
          (resolvePlatform .auto ["https://docs.example.com/a"]
            ⟨false, false, false, false⟩)
          "2026-01-01T00:00:00.000Z")
        "Platform: auto" = true := by
  decide

/-- C5 (amended): with the include-metadata flag enabled, a successful
`scrape` run returns a document that begins with the metadata header block
(base address, resolved platform, generation timestamp, separator), where
the resolved platform is the configured platform whenever that is not
`auto`; when the configured platform is `auto` the header carries the
detection result, which can itself be `auto`. -/
theorem scrape_begins_with_header (baseUrl date : String)
    (configured : Platform) (ind : PageIndicators) (urls : List String)
    (fetch : String → Except String String) (outputPath : Option String)
    (write : String → String → Except String Unit) (out : String)
    (h : scrape true baseUrl (resolvePlatform configured urls ind) date fetch
      urls outputPath write = Except.ok out) :
    strStarts out
        (metadataHeader baseUrl (resolvePlatform configured urls ind) date) =
      true ∧
    (configured ≠ Platform.auto →
      resolvePlatform configured urls ind = configured) := by
  refine ⟨?_, fun hne => resolvePlatform_not_auto configured urls ind hne⟩
  have hout := scrape_ok_out true baseUrl (resolvePlatform configured urls ind)
    date fetch urls outputPath write out h
  rw [hout]
  exact strStarts_append_self _ _

theorem scrape_begins_with_header_witness :
    strStarts
        (metadataHeader "https://d.ex"
            (resolvePlatform Platform.docusaurus ["https://d.ex/a"]
              ⟨false, false, false, false⟩) "2026-02-03T00:00:00.000Z" ++
          processPages (fun _ => Except.ok "") ["https://d.ex/a"])
        (metadataHeader "https://d.ex"
          (resolvePlatform Platform.docusaurus ["https://d.ex/a"]
            ⟨false, false, false, false⟩) "2026-02-03T00:00:00.000Z") =
      true ∧
    (Platform.docusaurus ≠ Platform.auto →
      resolvePlatform Platform.docusaurus ["https://d.ex/a"]
        ⟨false, false, false, false⟩ = Platform.docusaurus) :=
  scrape_begins_with_header "https://d.ex" "2026-02-03T00:00:00.000Z"
    Platform.docusaurus ⟨false, false, false, false⟩ ["https://d.ex/a"]
    (fun _ => Except.ok "") none (fun _ _ => Except.ok ()) _ rfl

/-- C6 is false as stated: for a `pre` whose nested `code` element has empty
text content, the JavaScript `||` fallback emits the converted markup
instead of the code's raw (empty) text, so the fenced body is not the raw
text content. -/
theorem code_block_raw_text_counterexample :
    codeBlockReplacement "hello" ⟨some ⟨"", ""⟩⟩ = "\n```\nhello\n```\n" ∧
      codeBlockReplacement "hello" ⟨some ⟨"", ""⟩⟩ ≠ "\n```\n\n```\n" := by
  decide

/-- C6 (amended): for every `pre` element with a nested `code` element whose
raw text content is non-empty, the code-block override emits a fenced block
tagged with the `language-<name>` capture from the code's class (empty tag
when absent) whose body is exactly the code's raw text, not the converted
markup. -/
theorem code_block_rule (content className text : String)
    (htext : text ≠ "") :
    codeBlockReplacement content ⟨some ⟨className, text⟩⟩ =
      "\n```" ++ (matchLanguage className).getD "" ++ "\n" ++ text ++
        "\n```\n" := by
  cases hm : matchLanguage className with
  | none => simp [codeBlockReplacement, hm, htext]
  | some l => simp [codeBlockReplacement, hm, htext]

theorem code_block_rule_witness :
    codeBlockReplacement "<em>x</em>"
        ⟨some ⟨"language-python", "print(1)"⟩⟩ =
      "\n```python\nprint(1)\n```\n" ∧ ("print(1)" : String) ≠ "" :=
  ⟨(code_block_rule "<em>x</em>" "language-python" "print(1)"
        (by decide)).trans (by decide),
    by decide⟩

/-- C7: the content extractor contributes nothing when no content selector
matches, and the selector cascade returns the inner markup of the element
matched by the first selector that matches any element, skipping every
earlier non-matching selector. -/
theorem content_selector_cascade (turndownFn pathOf : String → String)
    (page : PageModel) (selectors : List String) :
    ((∀ s ∈ selectors, page.selectorResult s = none) →
      extractContent turndownFn pathOf page selectors = "") ∧
    (∀ (before : List String) (s : String) (post : List String)
        (html : String),
      selectors = before ++ s :: post →
      (∀ t ∈ before, page.selectorResult t = none) →
      page.selectorResult s = some html →
      selectedContent page selectors = some html) := by
  constructor
  · intro hall
    unfold extractContent
    rw [selectedContent_none page selectors hall]
  · intro before s post html hsel hb hs
    rw [hsel, selectedContent_append_none page before hb]
    simp only [selectedContent, hs]

theorem content_selector_cascade_witness :
    selectedContent
        ⟨"T", "https://d.ex/a",
          fun s => if s = "s5" then some "<p>hi</p>" else none⟩
        ["s1", "s2", "s3", "s4", "s5", "s6"] = some "<p>hi</p>" ∧
      extractContent (fun s => s) (fun _ => "/a")
        ⟨"T", "https://d.ex/a", fun _ => none⟩ ["s1", "s2"] = "" :=
  ⟨(content_selector_cascade (fun s => s) (fun _ => "/a")
        ⟨"T", "https://d.ex/a",
          fun s => if s = "s5" then some "<p>hi</p>" else none⟩
        ["s1", "s2", "s3", "s4", "s5", "s6"]).2
      ["s1", "s2", "s3", "s4"] "s5" ["s6"] "<p>hi</p>" rfl (by decide)
      (by decide),
    (content_selector_cascade (fun s => s) (fun _ => "/a")
        ⟨"T", "https://d.ex/a", fun _ => none⟩ ["s1", "s2"]).1 (by decide)⟩

/-- C8 is false as stated: an element with classes
`callout callout-warning` is not classified by the admonition override at
all — the recognizable marker class in the source is `admonition` — and its
subtype extraction yields `note`, not `warning`. -/
theorem admonition_callout_counterexample :
    admonitionFilter ⟨["callout", "callout-warning"]⟩ = false ∧
      admonitionType ["callout", "callout-warning"] = "note" := by
  decide

/-- C8 (amended): the marker class of the admonition override is
`admonition`; the converted inner content is wrapped in a `:::<subtype>`
block where the subtype comes from the first class of the form
`admonition-<subtype>`, defaulting to `note` when no such class exists. -/
theorem admonition_rule (content : String) (node : AdmonitionNode) :
    (node.classList.find? (fun c => strStarts c "admonition-") = none →
      admonitionReplacement content node =
        "\n\n:::note\n" ++ content ++ "\n:::\n\n") ∧
    (∀ sub : String, sub ≠ "" →
      node.classList.find? (fun c => strStarts c "admonition-") =
        some ("admonition-" ++ sub) →
      admonitionReplacement content node =
        "\n\n:::" ++ sub ++ "\n" ++ content ++ "\n:::\n\n") := by
  constructor
  · intro hfind
    unfold admonitionReplacement
    rw [admonitionType_eq_none node.classList hfind]
    rfl
  · intro sub hsub hfind
    unfold admonitionReplacement
    rw [admonitionType_eq_some node.classList sub hsub hfind]

theorem admonition_rule_witness :
    admonitionReplacement "Be careful"
        ⟨["admonition", "admonition-warning"]⟩ =
      "\n\n:::warning\nBe careful\n:::\n\n" ∧ ("warning" : String) ≠ "" :=
  ⟨((admonition_rule "Be careful"
        ⟨["admonition", "admonition-warning"]⟩).2 "warning" (by decide)
      (by decide)).trans (by decide),
    by decide⟩

/-- C9: a failing fetch/extraction of one address contributes nothing and
processing continues with the remaining addresses, while a failing write of
the final document when an output path is given makes the whole `scrape`
operation return that failure. -/
theorem scrape_error_policy (fetch : String → Except String String)
    (before after : List String) (url e : String) (im : Bool)
    (baseUrl date : String) (p : Platform) (urls : List String)
    (path msg : String) (write : String → String → Except String Unit) :
    (fetch url = Except.error e →
      processPages fetch (before ++ url :: after) =
        processPages fetch (before ++ after)) ∧
    ((∀ s, write path s = Except.error msg) →
      scrape im baseUrl p date fetch urls (some path) write =
        Except.error msg) := by
  constructor
  · intro hf
    unfold processPages
    rw [List.foldl_append, List.foldl_append, List.foldl_cons]
    congr 1
    simp only [hf]
  · intro hw
    dsimp only [scrape]
    rw [hw]

theorem scrape_error_policy_witness :
    processPages
        (fun u => if u = "https://d.ex/bad" then Except.error "timeout"
          else Except.ok ("S " ++ u))
        (["https://d.ex/a"] ++ "https://d.ex/bad" :: ["https://d.ex/c"]) =
      processPages
        (fun u => if u = "https://d.ex/bad" then Except.error "timeout"
          else Except.ok ("S " ++ u))
        (["https://d.ex/a"] ++ ["https://d.ex/c"]) ∧
      scrape true "https://d.ex" Platform.auto "2026-02-03T00:00:00.000Z"
          (fun u => if u = "https://d.ex/bad" then Except.error "timeout"
            else Except.ok ("S " ++ u))
          [] (some "/tmp/out.md") (fun _ _ => Except.error "EACCES") =
        Except.error "EACCES" :=
  ⟨(scrape_error_policy
        (fun u => if u = "https://d.ex/bad" then Except.error "timeout"
          else Except.ok ("S " ++ u))
        ["https://d.ex/a"] ["https://d.ex/c"] "https://d.ex/bad" "timeout"
        true "https://d.ex" "2026-02-03T00:00:00.000Z" Platform.auto []
        "/tmp/out.md" "EACCES" (fun _ _ => Except.error "EACCES")).1 rfl,
    (scrape_error_policy
        (fun u => if u = "https://d.ex/bad" then Except.error "timeout"
          else Except.ok ("S " ++ u))
        ["https://d.ex/a"] ["https://d.ex/c"] "https://d.ex/bad" "timeout"
        true "https://d.ex" "2026-02-03T00:00:00.000Z" Platform.auto []
        "/tmp/out.md" "EACCES" (fun _ _ => Except.error "EACCES")).2
      (fun _ => rfl)⟩

end DocScraper
